import Mathlib

set_option maxHeartbeats 1000000

/-
Shallow embedding of fontFeatures/feaLib/Routine.py and
fontFeatures/feaLib/Chaining.py.  Python integer/boolean dict-key
unification, insertion-ordered dict bucketing, truthiness tests and
in-place object mutation are modelled explicitly.  The rule and routine
class definitions themselves (fontFeatures data model) are not among the
sources and are modelled from the spec where noted.
-/

/-- Python value used as a dict key by lookup_type: an int or a bool. -/
inductive PyVal where
  | int : Int → PyVal
  | bool : Bool → PyVal
deriving DecidableEq

/-- Numeric value of a key, following the Python unification of booleans
with their integer values. -/
def PyVal.toInt : PyVal → Int
  | .int n => n
  | .bool b => if b then 1 else 0

/-- Python equality test on lookup_type keys: True equals 1 and False
equals 0, so a bool and an int can be the same dict key. -/
def pyEq (a b : PyVal) : Bool := a.toInt == b.toInt

/-- Python str() of a lookup_type key, used for derived child names. -/
def PyVal.pystr : PyVal → String
  | .int n => toString n
  | .bool b => if b then "True" else "False"

mutual
/-- Modelled from the spec: the four rule variants of the fontFeatures data
model (the class definitions are not under src).  Each variant carries the
fields the embedded code reads: substitution and positioning shapes, the
attachment cursive flag, the chaining contexts and per-position lookup
lists, and the shared lookup-processing flags. -/
inductive FRule where
  | substitution (input replacement : List (List String)) (flags : Nat)
  | positioning (positions : List (List String)) (flags : Nat)
  | attachment ( is_cursive : Bool) (flags : Nat)
  | chaining (precontext input postcontext : List (List String))
      (lookups : List (Option (List (Option Routine)))) (flags : Nat)

/-- Modelled from the spec: a Group ("routine"): an ordered rule list plus
an optional name, flags (default 0) and language scopes (default empty). -/
inductive Routine where
  | mk (name : Option String) (rules : List FRule) (flags : Nat)
      (languages : List (String × String))
end

/-- Name field of a routine. -/
def Routine.name : Routine → Option String
  | .mk n _ _ _ => n

/-- Rule list of a routine. -/
def Routine.rules : Routine → List FRule
  | .mk _ r _ _ => r

/-- Flags field of a routine. -/
def Routine.flags : Routine → Nat
  | .mk _ _ f _ => f

/-- Language scopes of a routine. -/
def Routine.languages : Routine → List (String × String)
  | .mk _ _ _ l => l

/-- In-place update of the routine flags field, as arrange_by_flags
performs it. -/
def Routine.withFlags (f : Nat) : Routine → Routine
  | .mk n r _ l => .mk n r f l

/-- High-level rule variant: the key type(r) buckets on in
arrange_by_type. -/
inductive RName where
  | substitution | positioning | attachment | chaining
deriving DecidableEq

/-- Python type(r) of a rule. -/
def FRule.pytype : FRule → RName
  | .substitution .. => .substitution
  | .positioning .. => .positioning
  | .attachment .. => .attachment
  | .chaining .. => .chaining

/-- Flags of a rule. -/
def FRule.flags : FRule → Nat
  | .substitution _ _ f => f
  | .positioning _ f => f
  | .attachment _ f => f
  | .chaining _ _ _ _ f => f

/-- Modelled from the spec: ttLib/Substitution.py, whose lookup_type is not
under src.  Substitution subtype from the rule shape: ligature (4) for a
multi-glyph input sequence, multiple (2) for one input position with a
replacement sequence of length other than one, single (1) otherwise.
Alternate substitutions are not distinguished by this model; the claims
rely only on the single tag 1 and the multiple tag 2. -/
def sub_lookup_type (input replacement : List (List String)) : Int :=
  if input.length != 1 then 4
  else if replacement.length != 1 then 2
  else 1

/-- Modelled from the spec: ttLib/Positioning.py, whose lookup_type is not
under src.  Positioning subtype from the rule shape: single (1) for one
positioned input, pair (2) otherwise. -/
def pos_lookup_type (positions : List (List String)) : Int :=
  if positions.length == 1 then 1 else 2

/-- Embeds lookup_type of feaLib/Routine.py.  Attachment rules return their
cursive flag (a Python bool), chaining rules the fixed int 1.  The
ValueError branch of the source is unreachable over this closed rule
type. -/
def lookup_type : FRule → PyVal
  | .substitution i r _ => .int (sub_lookup_type i r)
  | .positioning p _ => .int (pos_lookup_type p)
  | .attachment c _ => .bool c
  | .chaining .. => .int 1

/-- Append one value to the bucket of key k in an insertion-ordered bucket
list (a Python dict of lists built inside a loop), comparing keys with
keq; the first-seen key object is retained. -/
def bucketAdd (keq : K → K → Bool) : List (K × List V) → K → V → List (K × List V)
  | [], k, v => [(k, [v])]
  | (k0, vs) :: rest, k, v =>
    if keq k k0 then (k0, vs ++ [v]) :: rest
    else (k0, vs) :: bucketAdd keq rest k v

/-- Bucket a list of values by a key function, preserving first-seen key
order, as the Python dict loops of Routine.py do. -/
def bucketize (keq : K → K → Bool) (f : V → K) (vs : List V) : List (K × List V) :=
  vs.foldl (fun b v => bucketAdd keq b (f v) v) []

/-- Extend the bucket of key k with a whole list of values, as add_lang of
arrange_by_language does with dict[k].extend. -/
def bucketAddAll (keq : K → K → Bool) : List (K × List V) → K → List V → List (K × List V)
  | [], k, vs => [(k, vs)]
  | (k0, ws) :: rest, k, vs =>
    if keq k k0 then (k0, ws ++ vs) :: rest
    else (k0, ws) :: bucketAddAll keq rest k vs

/-- Python truthiness of an optional string field: None and the empty
string are both falsy. -/
def pyTruthyStr : Option String → Bool
  | none => false
  | some s => !s.isEmpty

/-- Python truthiness of the value a splitting pass returns: None and the
empty list are both falsy. -/
def pyTruthySplit : Option (List Routine) → Bool
  | some (_ :: _) => true
  | _ => false

/-- Message of the TypeError raised when a named parent builds a child name
by concatenating its name with a type object. -/
def pyTypeConcatError : String := "TypeError: can only concatenate str to str"

/-- Message of the TypeError raised by iterating over None. -/
def pyNoneIterError : String := "TypeError: NoneType object is not iterable"

/-- Embeds arrange_by_type of feaLib/Routine.py.  The source builds one
child routine per type bucket but never appends it to the list it returns,
so the returned list is always empty; when the parent name is truthy the
child-name assignment concatenates that name with a type object and raises
TypeError on the first bucket. -/
def arrange_by_type (self : Routine) : Except String (Option (List Routine)) :=
  let ruleTypes := bucketize (fun a b => decide (a = b)) FRule.pytype self.rules
  if ruleTypes.length == 1 then .ok none
  else if pyTruthyStr self.name && !ruleTypes.isEmpty then .error pyTypeConcatError
  else .ok (some [])

/-- Python equality on a tuple of lookup_type keys, element by element. -/
def pyTupleEq : List PyVal → List PyVal → Bool
  | [], [] => true
  | a :: as, b :: bs => pyEq a b && pyTupleEq as bs
  | _, _ => false

/-- Embeds arrange_by_lookup_type of feaLib/Routine.py, including the
special case that compares the first-seen key tuple with (1, 2). -/
def arrange_by_lookup_type (self : Routine) : Option (List Routine) :=
  let ruleTypes := bucketize pyEq lookup_type self.rules
  if ruleTypes.length == 1 then none
  else if pyTupleEq (ruleTypes.map Prod.fst) [PyVal.int 1, PyVal.int 2] then none
  else some (ruleTypes.map (fun kv =>
    Routine.mk
      (if pyTruthyStr self.name then some (self.name.getD "" ++ "_" ++ kv.1.pystr)
       else none)
      kv.2 0 []))

/-- Embeds arrange_by_flags of feaLib/Routine.py; a single flag bucket sets
the flags field of the group itself as a side effect and reports no
split. -/
def arrange_by_flags (self : Routine) : Routine × Option (List Routine) :=
  let flagTypes := bucketize (fun a b => decide (a = b)) FRule.flags self.rules
  match flagTypes with
  | [(k, _)] => (self.withFlags k, none)
  | _ =>
    (self, some (flagTypes.map (fun kv =>
      Routine.mk
        (if pyTruthyStr self.name then some (self.name.getD "" ++ "_" ++ toString kv.1)
         else none)
        kv.2 kv.1 [])))

/-- Language-pair expansion of arrange_by_language: language "*" becomes
"dflt". -/
def expandLang (p : String × String) : String × String :=
  (p.1, if p.2 == "*" then "dflt" else p.2)

/-- Embeds arrange_by_language of feaLib/Routine.py: every occurrence of a
pair in the languages list extends its bucket with all of the rules of the
group. -/
def arrange_by_language (self : Routine) : Option (List Routine) :=
  if self.languages.isEmpty then none
  else
    let languages := self.languages.foldl
      (fun b sl => bucketAddAll (fun a b => decide (a = b)) b (expandLang sl) self.rules) []
    if languages.length < 2 then none
    else some (languages.map (fun kv =>
      Routine.mk
        (if pyTruthyStr self.name then
          some (self.name.getD "" ++ "_" ++ kv.1.1 ++ "_" ++ kv.1.2)
         else none)
        kv.2 0 [kv.1]))

/-- Embeds arrange of feaLib/Routine.py: the four passes in priority order,
each result tested for Python truthiness, so both None and an empty list
fall through to the next pass. -/
def arrange (self : Routine) : Except String (Routine × Option (List Routine)) :=
  match arrange_by_type self with
  | .error e => .error e
  | .ok splitType =>
    if pyTruthySplit splitType then .ok (self, splitType)
    else
      let split2 := arrange_by_lookup_type self
      if pyTruthySplit split2 then .ok (self, split2)
      else
        let splitLang := arrange_by_language self
        if pyTruthySplit splitLang then .ok (self, splitLang)
        else
          let fl := arrange_by_flags self
          if pyTruthySplit fl.2 then .ok (fl.1, fl.2)
          else .ok (fl.1, none)

/-- Session state carried on the FontFeatures container while lowering: the
gensym counter, the sorted-glyph-tuple to class-name cache, the emitted
named-class table, the synthesised-lookup cache, and an instrumentation
counter recording each invocation of the external compatibleRules
oracle. -/
structure Session where
  index : Nat := 0
  glyphclasses : List (List String × String) := []
  namedClasses : List (String × List String) := []
  synthesised : List (String × Routine) := []
  oracleCalls : Nat := 0

/-- Association-list lookup standing in for Python dict membership and
indexing over structural keys. -/
def assocLookup [DecidableEq K] (k : K) : List (K × V) → Option V
  | [] => none
  | (k0, v) :: rest => if k = k0 then some v else assocLookup k rest

namespace Chaining

/-- Fields of a Chaining rule object that feaLib/Chaining.py reads and
writes: the three context sequences and the per-position lookup lists. -/
structure ChainRule where
  precontext : List (List String)
  input : List (List String)
  postcontext : List (List String)
  lookups : List (Option (List (Option Routine)))

/-- Embeds gensym of feaLib/Chaining.py; the absent scratch key behaves
like the counter value 0, so the first generated symbol is "1". -/
def gensym (ff : Session) : Session × String :=
  let ff2 := { ff with index := ff.index + 1 }
  (ff2, toString ff2.index)

/-- Lexicographic comparison of character lists by code point, the order
Python sorted uses on strings. -/
def strListLe : List Char → List Char → Bool
  | [], _ => true
  | _ :: _, [] => false
  | a :: as, b :: bs =>
    if a.val < b.val then true
    else if b.val < a.val then false
    else strListLe as bs

/-- Lexicographic comparison of strings by code point. -/
def pyStrLe (a b : String) : Bool := strListLe a.data b.data

/-- Insertion step of the stable ascending sort. -/
def insertSorted (x : String) : List String → List String
  | [] => [x]
  | y :: ys => if pyStrLe x y then x :: y :: ys else y :: insertSorted x ys

/-- Embeds tuple(sorted(gc)): ascending sort with duplicates kept. -/
def pySorted (l : List String) : List String := l.foldr insertSorted []

/-- Embeds replaceLongWithClasses of feaLib/Chaining.py: each glyph class
of more than 5 names is replaced in place by a reference to a class name
cached under the sorted (not deduplicated) glyph tuple; a fresh name is
allocated through gensym and registered in the named-class table and the
cache. -/
def replaceLongWithClasses : List (List String) → Session → List (List String) × Session
  | [], ff => ([], ff)
  | gc :: rest, ff =>
    if gc.length > 5 then
      match assocLookup (pySorted gc) ff.glyphclasses with
      | some cn =>
        let r := replaceLongWithClasses rest ff
        (["@" ++ cn] :: r.1, r.2)
      | none =>
        let g := gensym ff
        let cn := "class" ++ g.2
        let ff2 := { g.1 with
          namedClasses := g.1.namedClasses ++ [(cn, gc)],
          glyphclasses := g.1.glyphclasses ++ [(pySorted gc, cn)] }
        let r := replaceLongWithClasses rest ff2
        (["@" ++ cn] :: r.1, r.2)
    else
      let r := replaceLongWithClasses rest ff
      (gc :: r.1, r.2)

/-- Reference to one glyph or to an inline glyph class, the output shape of
glyphref. -/
inductive GlyphRef where
  | name (g : String)
  | cls (gs : List String)

/-- Embeds glyphref of feaLib/Chaining.py. -/
def glyphref : List String → GlyphRef
  | [x] => .name x
  | g => .cls g

/-- Statements the embedded chaining lowering can produce. -/
inductive FeaStatement where
  | chainContextSubst (precontext input postcontext : List GlyphRef)
      (lookups : List (Option Routine))
  | chainContextPos (precontext input postcontext : List GlyphRef)
      (lookups : List (Option Routine))
  | ignoreSubst (precontext input postcontext : List GlyphRef)
  | comment (text : String)

mutual
/-- Embeds suborpos of feaLib/Chaining.py: scan the positions for the first
routine whose first rule settles substitution versus positioning; a
chaining rule delegates to its own lookups and that answer is returned
unconditionally, even when it is None. -/
def suborpos : List (Option (List (Option Routine))) → Option String
  | [] => none
  | none :: rest => suborpos rest
  | some l :: rest =>
    match suborposRoutines l with
    | some v => v
    | none => suborpos rest

/-- Scan one position: skip absent routines, descend into the rule list of
each present one. -/
def suborposRoutines : List (Option Routine) → Option (Option String)
  | [] => none
  | none :: rest => suborposRoutines rest
  | some (.mk _ rules _ _) :: rest =>
    match suborposRules rules with
    | some v => some v
    | none => suborposRoutines rest

/-- Scan a rule list: the first rule decides; an empty list decides
nothing. -/
def suborposRules : List FRule → Option (Option String)
  | [] => none
  | .substitution .. :: _ => some (some "sub")
  | .positioning .. :: _ => some (some "pos")
  | .attachment .. :: _ => some (some "pos")
  | .chaining _ _ _ lookups _ :: _ => some (suborpos lookups)
end

/-- Python x or [None] applied to a per-position lookup entry: absent
entries and empty lists become the one-element [None] list. -/
def pyOrDefault : Option (List (Option Routine)) → List (Option Routine)
  | none => [none]
  | some [] => [none]
  | some l => l

/-- Python test x and len(x) > 1 on a per-position lookup entry. -/
def isMulti : Option (List (Option Routine)) → Bool
  | some l => decide (l.length > 1)
  | none => false

/-- Embeds the name-discarding loop of _complex: each present position list
is rewritten to bare lookup names; iterating an absent (None) position
raises TypeError.  The rewritten list is already detached from the rule
when the loop runs. -/
def luNames : List (Option (List (Option Routine))) → Except String (List (List (Option String)))
  | [] => .ok []
  | none :: _ => .error pyNoneIterError
  | some l :: rest =>
    match luNames rest with
    | .error e => .error e
    | .ok r => .ok (l.map (fun x => x.bind Routine.name) :: r)

/-- Warning text issued by _complex (the source wording uses an
apostrophe in the first word). -/
def afdkoWarning : String := "Cannot currently express multiple lookups per position in AFDKO"

/-- Embeds _complex of feaLib/Chaining.py for EXPERIMENTAL_FONTTOOLS =
False, the value set in the source: warn, detach the lookup list and reset
self.lookups to the empty list, rewrite the detached list to names
(raising TypeError on an absent position), and produce the placeholder
comment statement. -/
def _complex (self : ChainRule) : ChainRule × List String × Except String FeaStatement :=
  let lu := self.lookups
  let self2 : ChainRule := { self with lookups := [] }
  match luNames lu with
  | .error e => (self2, [afdkoWarning], .error e)
  | .ok _ => (self2, [afdkoWarning], .ok (.comment "# Unparsing failed"))

/-- Embeds asFeaAST of feaLib/Chaining.py (EXPERIMENTAL_FONTTOOLS =
False): the ignore path for an empty or all-absent lookup list, the
_complex fallback when some position holds more than one lookup, and
otherwise the single-lookup chain statement after rewriting absent
positions to [None] in place.  The result carries the rule state after
mutation, the warnings issued, and the statement or the raised error. -/
def asFeaAST (self : ChainRule) : ChainRule × List String × Except String FeaStatement :=
  if self.lookups.length > 0 && self.lookups.any (fun x => x.isSome) then
    let isSub := suborpos self.lookups == some "sub"
    if self.lookups.any isMulti then _complex self
    else
      let normalized := self.lookups.map pyOrDefault
      let self2 : ChainRule := { self with lookups := normalized.map some }
      let lookups := normalized.map (fun l => l.headD none)
      (self2, [],
        .ok (if isSub then
          .chainContextSubst (self.precontext.map glyphref) (self.input.map glyphref)
            (self.postcontext.map glyphref) lookups
        else
          .chainContextPos (self.precontext.map glyphref) (self.input.map glyphref)
            (self.postcontext.map glyphref) lookups))
  else
    (self, [], .ok (.ignoreSubst (self.precontext.map glyphref) (self.input.map glyphref)
      (self.postcontext.map glyphref)))

/-- Embeds the synthesis loop of feaPreamble over the per-position lookup
lists.  A position holding exactly two lookups is replaced by the cached
merged routine when either name order is in the session cache; otherwise
the external compatibleRules oracle is invoked (bumping the
instrumentation counter) and, when it accepts, the concatenated routine is
optimized by the external optimizer, substituted for the position, cached
under the first name order only, and returned as a sibling.  Positions
with any other number of lookups pass through untouched. -/
def feaPreambleLoop (oracle : Routine → Routine → Bool) (opt : Routine → Routine) :
    List (Option (List (Option Routine))) → Session →
    Except String (List (Option (List (Option Routine))) × Session × List Routine)
  | [], ff => .ok ([], ff, [])
  | none :: rest, ff =>
    match feaPreambleLoop oracle opt rest ff with
    | .error e => .error e
    | .ok r => .ok (none :: r.1, r.2.1, r.2.2)
  | some l :: rest, ff =>
    if l.length == 2 then
      match l with
      | [some r0, some r1] =>
        match r0.name, r1.name with
        | some n0, some n1 =>
          let synthname := n0 ++ "_" ++ n1
          let synthname2 := n1 ++ "_" ++ n0
          match assocLookup synthname ff.synthesised with
          | some cached =>
            match feaPreambleLoop oracle opt rest ff with
            | .error e => .error e
            | .ok r => .ok (some [some cached] :: r.1, r.2.1, r.2.2)
          | none =>
            match assocLookup synthname2 ff.synthesised with
            | some cached =>
              match feaPreambleLoop oracle opt rest ff with
              | .error e => .error e
              | .ok r => .ok (some [some cached] :: r.1, r.2.1, r.2.2)
            | none =>
              let ff2 := { ff with oracleCalls := ff.oracleCalls + 1 }
              if oracle r0 r1 then
                let synthesised := opt (.mk (some synthname) (r0.rules ++ r1.rules) 0 [])
                let ff3 := { ff2 with
                  synthesised := ff2.synthesised ++ [(synthname, synthesised)] }
                match feaPreambleLoop oracle opt rest ff3 with
                | .error e => .error e
                | .ok r => .ok (some [some synthesised] :: r.1, r.2.1, synthesised :: r.2.2)
              else
                match feaPreambleLoop oracle opt rest ff2 with
                | .error e => .error e
                | .ok r => .ok (some l :: r.1, r.2.1, r.2.2)
        | _, _ => .error "TypeError: unsupported operand types for +"
      | _ => .error "AttributeError: NoneType object has no attribute name"
    else
      match feaPreambleLoop oracle opt rest ff with
      | .error e => .error e
      | .ok r => .ok (some l :: r.1, r.2.1, r.2.2)

/-- Embeds feaPreamble of feaLib/Chaining.py for EXPERIMENTAL_FONTTOOLS =
False: oversized classes in the input, precontext and postcontext are
replaced first, then the synthesis loop runs over the per-position
lookups.  markRoutineUseInChains only marks routine usage on the container
and touches none of the modelled session fields; the synthesised siblings
are returned as routines where the source appends their serialized
statements. -/
def feaPreamble (self : ChainRule) (ff : Session) (oracle : Routine → Routine → Bool)
    (opt : Routine → Routine) : Except String (ChainRule × Session × List Routine) :=
  let ri := replaceLongWithClasses self.input ff
  let rp := replaceLongWithClasses self.precontext ri.2
  let rq := replaceLongWithClasses self.postcontext rp.2
  let self2 : ChainRule := { self with input := ri.1, precontext := rp.1, postcontext := rq.1 }
  match feaPreambleLoop oracle opt self2.lookups rq.2 with
  | .error e => .error e
  | .ok r => .ok ({ self2 with lookups := r.1 }, r.2.1, r.2.2)

end Chaining

/-
Concrete fixtures used by witnesses and counterexamples below.
-/

/-- A single substitution (subtype tag 1). -/
def sampleSub : FRule := .substitution [["a"]] [["b"]] 0

/-- A multiple substitution (subtype tag 2). -/
def sampleMult : FRule := .substitution [["a"]] [["b"], ["c"]] 0

/-- A single positioning (subtype tag 1). -/
def samplePos : FRule := .positioning [["a"]] 0

/-- A chaining rule with no contexts and no lookups (subtype tag 1). -/
def sampleChain : FRule := .chaining [] [] [] [] 0

/-- Referenced routine named A with one substitution rule. -/
def routineA : Routine := .mk (some "A") [sampleSub] 0 []

/-- Referenced routine named B with one substitution rule. -/
def routineB : Routine := .mk (some "B") [sampleSub] 0 []

/-- Referenced routine named C with one substitution rule. -/
def routineC : Routine := .mk (some "C") [sampleSub] 0 []

/-- A chaining rule with one input position referencing the two given
routines simultaneously. -/
def pairRule (x y : Routine) : Chaining.ChainRule := ⟨[], [], [], [some [some x, some y]]⟩

/-- A chaining rule whose only oversized glyph class sits in the input
sequence. -/
def inputClassRule (g : List String) : Chaining.ChainRule := ⟨[], [g], [], []⟩

/-- Chaining rule with an absent position next to a three-lookup
position. -/
def multiAbsentRule : Chaining.ChainRule :=
  ⟨[], [["x"], ["y"]], [], [none, some [some routineA, some routineB, some routineC]]⟩

/-- Chaining rule with a single position holding three lookups. -/
def multiPresentRule : Chaining.ChainRule :=
  ⟨[], [["x"]], [], [some [some routineA, some routineB, some routineC]]⟩

/-- Named parent group with two distinct language pairs. -/
def langParent : Routine :=
  .mk (some "f") [sampleSub] 0 [("latn", "dflt"), ("grek", "dflt")]

/-- Homogeneous group: two single substitutions sharing flags 7, one
wildcard language scope, and group flags initially 3. -/
def homogeneousGroup : Routine :=
  .mk (some "lig")
    [.substitution [["a"]] [["b"]] 7, .substitution [["c"]] [["d"]] 7] 3 [("latn", "*")]

/-- Chaining rule with one absent position and one single-lookup
position. -/
def singleLookupRule : Chaining.ChainRule :=
  ⟨[], [["x"], ["y"]], [], [none, some [some routineA]]⟩

/-- Chaining rule whose two positions are both absent. -/
def allAbsentRule : Chaining.ChainRule :=
  ⟨[["p"]], [["x"]], [], [none, none]⟩

/-- Oversized glyph class written descending. -/
def oversizedA : List String := ["f", "e", "d", "c", "b", "a"]

/-- Oversized glyph class equal to oversizedA as a set after
deduplication, but with a duplicated first glyph. -/
def oversizedB : List String := ["a", "a", "b", "c", "d", "e", "f"]

/-- Chaining rule whose only glyph class sits in the precontext. -/
def preClassRule (g : List String) : Chaining.ChainRule := ⟨[g], [], [], []⟩

/-- Chaining rule whose only glyph class sits in the postcontext. -/
def postClassRule (g : List String) : Chaining.ChainRule := ⟨[], [], [g], []⟩

/-
Helper lemmas about the bucketing and cache primitives.
-/

/-- Transitivity of the Python key equality through a common key. -/
theorem pyEq_trans {a b c : PyVal} (h1 : pyEq a c = true) (h2 : pyEq b c = true) :
    pyEq a b = true := by
  simp only [pyEq, beq_iff_eq] at h1 h2 ⊢
  omega

/-- Folding values whose keys all match the single existing bucket appends
them all to that bucket. -/
theorem bucketize_foldl_const {K V : Type} (keq : K → K → Bool) (f : V → K) (k0 : K)
    (vs : List V) : ∀ acc : List V, (∀ v ∈ vs, keq (f v) k0 = true) →
    List.foldl (fun b v => bucketAdd keq b (f v) v) [(k0, acc)] vs = [(k0, acc ++ vs)] := by
  induction vs with
  | nil => intro acc _; simp
  | cons v vs ih =>
    intro acc h
    have hv : keq (f v) k0 = true := h v (List.mem_cons_self v vs)
    simp only [List.foldl_cons, bucketAdd, hv, if_true]
    rw [ih (acc ++ [v]) (fun w hw => h w (List.mem_cons_of_mem _ hw))]
    simp

/-- Bucketing a nonempty list of values with a single shared key yields one
bucket holding the whole list. -/
theorem bucketize_const {K V : Type} (keq : K → K → Bool) (f : V → K) (v0 : V)
    (vs : List V) (h : ∀ v ∈ vs, keq (f v) (f v0) = true) :
    bucketize keq f (v0 :: vs) = [(f v0, v0 :: vs)] := by
  simp only [bucketize, List.foldl_cons, bucketAdd]
  rw [bucketize_foldl_const keq f (f v0) vs [v0] h]
  simp

/-- Extending a fresh key appends a new bucket at the end. -/
theorem bucketAddAll_notmem {K V : Type} [DecidableEq K] (k : K) (vs : List V) :
    ∀ b : List (K × List V), (∀ p ∈ b, p.1 ≠ k) →
    bucketAddAll (fun a b => decide (a = b)) b k vs = b ++ [(k, vs)] := by
  intro b
  induction b with
  | nil => intro _; rfl
  | cons p rest ih =>
    intro h
    obtain ⟨k0, ws⟩ := p
    have hne : (decide (k = k0)) = false := by
      refine decide_eq_false ?_
      intro he
      exact h (k0, ws) (List.mem_cons_self _ _) (by simp [he])
    simp only [bucketAddAll, hne, Bool.false_eq_true, if_false, List.cons_append,
      List.cons.injEq, true_and]
    exact ih (fun q hq => h q (List.mem_cons_of_mem _ hq))

/-- The add_lang fold over pairwise-distinct expanded pairs produces one
bucket per pair, in order, each holding the full rule list. -/
theorem langFold (rules : List FRule) :
    ∀ (pairs : List (String × String)) (b : List ((String × String) × List FRule)),
    (pairs.map expandLang).Nodup →
    (∀ p ∈ pairs, ∀ q ∈ b, q.1 ≠ expandLang p) →
    pairs.foldl (fun b sl => bucketAddAll (fun a b => decide (a = b)) b (expandLang sl) rules) b
      = b ++ (pairs.map expandLang).map (fun k => (k, rules)) := by
  intro pairs
  induction pairs with
  | nil => intro b _ _; simp
  | cons p ps ih =>
    intro b hnd hdisj
    simp only [List.foldl_cons]
    rw [bucketAddAll_notmem (expandLang p) rules b
      (fun q hq => hdisj p (List.mem_cons_self _ _) q hq)]
    simp only [List.map_cons, List.nodup_cons] at hnd
    rw [ih (b ++ [(expandLang p, rules)]) hnd.2 ?_]
    · simp
    · intro q hq r hr
      rcases List.mem_append.mp hr with hrb | hrp
      · exact hdisj q (List.mem_cons_of_mem _ hq) r hrb
      · have hre : r = (expandLang p, rules) := by simpa using hrp
        subst hre
        intro hcontra
        have hc2 : expandLang p = expandLang q := hcontra
        exact hnd.1 (hc2 ▸ List.mem_map_of_mem expandLang hq)

/-- Appending a binding for an absent key makes it found. -/
theorem assocLookup_append_self {K V : Type} [DecidableEq K] (k : K) (v : V) :
    ∀ l : List (K × V), assocLookup k l = none →
    assocLookup k (l ++ [(k, v)]) = some v := by
  intro l
  induction l with
  | nil =>
    intro _
    rw [List.nil_append]
    simp [assocLookup]
  | cons p rest ih =>
    intro h
    obtain ⟨k0, w⟩ := p
    by_cases he : k = k0
    · simp [assocLookup, he] at h
    · simp only [assocLookup, he, if_false, List.cons_append] at h ⊢
      exact ih h

/-- Lookup distributes over append, preferring the left list. -/
theorem assocLookup_append {K V : Type} [DecidableEq K] (k : K) :
    ∀ l1 l2 : List (K × V), assocLookup k (l1 ++ l2)
      = match assocLookup k l1 with
        | some v => some v
        | none => assocLookup k l2 := by
  intro l1 l2
  induction l1 with
  | nil => simp [assocLookup]
  | cons p rest ih =>
    obtain ⟨k0, w⟩ := p
    by_cases he : k = k0
    · simp [assocLookup, he]
    · simp only [List.cons_append, assocLookup, he, if_false]
      exact ih

/-
Helper lemmas about the chaining lowering primitives.
-/

/-- The name-discarding loop succeeds exactly when every position entry is
present. -/
theorem luNames_ok (l : List (Option (List (Option Routine))))
    (h : l.all Option.isSome = true) : ∃ v, Chaining.luNames l = .ok v := by
  induction l with
  | nil => exact ⟨[], rfl⟩
  | cons x rest ih =>
    simp only [List.all_cons, Bool.and_eq_true] at h
    obtain ⟨xv, hx⟩ := Option.isSome_iff_exists.mp h.1
    obtain ⟨v, hv⟩ := ih h.2
    subst hx
    exact ⟨List.map (fun x => x.bind Routine.name) xv :: v,
      by simp only [Chaining.luNames, hv]⟩

/-- The name-discarding loop raises TypeError when some position entry is
absent. -/
theorem luNames_err (l : List (Option (List (Option Routine))))
    (h : l.all Option.isSome = false) :
    Chaining.luNames l = .error pyNoneIterError := by
  induction l with
  | nil => simp at h
  | cons x rest ih =>
    cases x with
    | none => rfl
    | some xl =>
      simp only [List.all_cons, Option.isSome_some, Bool.true_and] at h
      simp only [Chaining.luNames, ih h]

/-- The synthesis loop passes an all-absent lookup list through untouched,
without errors, session changes or siblings. -/
theorem feaPreambleLoop_allNone (oracle : Routine → Routine → Bool)
    (opt : Routine → Routine) (entries : List (Option (List (Option Routine))))
    (ff : Session) (h : ∀ x ∈ entries, x = none) :
    Chaining.feaPreambleLoop oracle opt entries ff = .ok (entries, ff, []) := by
  induction entries with
  | nil => rfl
  | cons x rest ih =>
    have hx : x = none := h x (List.mem_cons_self _ _)
    subst hx
    simp only [Chaining.feaPreambleLoop, ih (fun y hy => h y (List.mem_cons_of_mem _ hy))]

/-- Oversized-class replacement never touches the synthesis cache or the
oracle counter. -/
theorem replaceLongWithClasses_preserves (i : List (List String)) :
    ∀ ff : Session,
    (Chaining.replaceLongWithClasses i ff).2.oracleCalls = ff.oracleCalls
    ∧ (Chaining.replaceLongWithClasses i ff).2.synthesised = ff.synthesised := by
  induction i with
  | nil => intro ff; exact ⟨rfl, rfl⟩
  | cons gc rest ih =>
    intro ff
    by_cases hlen : gc.length > 5
    · simp only [Chaining.replaceLongWithClasses, hlen, if_true]
      cases halu : assocLookup (Chaining.pySorted gc) ff.glyphclasses with
      | some cn => simpa using ih ff
      | none => simpa using ih _
    · simp only [Chaining.replaceLongWithClasses, hlen, if_false]
      simpa using ih ff

/-- A position with more than one lookup is in particular present. -/
theorem any_isMulti_isSome {l : List (Option (List (Option Routine)))}
    (h : l.any Chaining.isMulti = true) :
    (l.any fun x => x.isSome) = true ∧ 0 < l.length := by
  obtain ⟨x, hx, hm⟩ := List.any_eq_true.mp h
  cases x with
  | none => simp [Chaining.isMulti] at hm
  | some xl =>
    constructor
    · exact List.any_eq_true.mpr ⟨some xl, hx, rfl⟩
    · exact List.length_pos.mpr (List.ne_nil_of_mem hx)

/-
Claim theorems.
-/

/-- C1: the claim says arrange returns one non-empty child per high-level
variant for mixed groups.  The code never appends the built children, so
arrange_by_type returns the empty (falsy) list for an unnamed mixed group,
arrange falls through to the later passes and reports no split at all, and
for a named mixed group building the child name raises TypeError.  This
theorem evaluates the embedded code at such failing inputs. -/
theorem fontFeatures_C1_arrange_by_type_drops_children :
    arrange_by_type (.mk none [sampleSub, samplePos] 0 []) = .ok (some [])
    ∧ arrange_by_type (.mk (some "mixed") [sampleSub, samplePos] 0 []) =
        .error pyTypeConcatError
    ∧ arrange (.mk none [sampleSub, samplePos] 0 []) =
        .ok (.mk none [sampleSub, samplePos] 0 [], none) :=
  ⟨rfl, rfl, rfl⟩

/-- C4 counterexample: a group whose first rule is a multiple substitution
and whose second is a single substitution has first-seen key tuple (2, 1),
so the subtype pass splits it, refuting the claim that the {1, 2} key set
never splits regardless of first-occurrence order. -/
theorem fontFeatures_C4_subtype_order_counterexample :
    arrange_by_lookup_type (.mk none [sampleMult, sampleSub] 0 []) =
      some [.mk none [sampleMult] 0 [], .mk none [sampleSub] 0 []] :=
  rfl

/-- C4 amended: the single/multiple special case applies only when the
first-seen key tuple is exactly (1, 2), that is, when a single substitution
occurs before every multiple substitution; then the subtype pass reports no
split. -/
theorem fontFeatures_C4_subtype_special_case_amended (self : Routine)
    (h : (bucketize pyEq lookup_type self.rules).map Prod.fst =
      [PyVal.int 1, PyVal.int 2]) :
    arrange_by_lookup_type self = none := by
  have hlen : (bucketize pyEq lookup_type self.rules).length = 2 := by
    have := congrArg List.length h
    simpa using this
  simp only [arrange_by_lookup_type, hlen, h]
  simp [pyTupleEq, pyEq]

/-- C4 witness: a single substitution followed by a multiple substitution
has key tuple (1, 2) and the pass reports no split. -/
theorem fontFeatures_C4_subtype_special_case_amended_witness :
    (bucketize pyEq lookup_type (Routine.mk none [sampleSub, sampleMult] 0 []).rules).map
      Prod.fst = [PyVal.int 1, PyVal.int 2]
    ∧ arrange_by_lookup_type (.mk none [sampleSub, sampleMult] 0 []) = none :=
  ⟨rfl, fontFeatures_C4_subtype_special_case_amended _ rfl⟩

/-- C9 counterexample: a group holding a cursive attachment rule (key True)
and a chaining rule (key 1) is not split by the subtype pass, because the
Python keys True and 1 are equal; the claim said it splits into two
buckets. -/
theorem fontFeatures_C9_cursive_chaining_counterexample :
    arrange_by_lookup_type (.mk none [.attachment true 0, sampleChain] 0 []) = none :=
  rfl

/-- C9 amended: the cursive attachment tag True is the same dict key as the
chaining tag 1, so any nonempty group whose rules all carry a key equal to
1 under Python key equality (cursive attachments, chaining rules, subtype-1
substitutions or positionings) is left unsplit; a non-cursive attachment
(key False, equal to 0) next to a chaining rule does split into two
buckets. -/
theorem fontFeatures_C9_key_unification_amended :
    (∀ self : Routine, self.rules.isEmpty = false →
      (∀ r ∈ self.rules, pyEq (lookup_type r) (PyVal.int 1) = true) →
      arrange_by_lookup_type self = none)
    ∧ arrange_by_lookup_type (.mk none [.attachment false 0, sampleChain] 0 []) =
        some [.mk none [.attachment false 0] 0 [], .mk none [sampleChain] 0 []] := by
  constructor
  · intro self hne hall
    obtain ⟨n, rules, fl, langs⟩ := self
    simp only [Routine.rules] at hne hall
    cases rules with
    | nil => simp at hne
    | cons r0 rs =>
      have hall2 : ∀ w ∈ rs, pyEq (lookup_type w) (lookup_type r0) = true := by
        intro w hw
        exact pyEq_trans (hall w (List.mem_cons_of_mem _ hw))
          (hall r0 (List.mem_cons_self _ _))
      simp only [arrange_by_lookup_type, Routine.rules,
        bucketize_const pyEq lookup_type r0 rs hall2]
      rfl
  · rfl

/-- C9 witness: a cursive attachment plus a chaining rule satisfies the
all-keys-equal-1 hypothesis and the pass reports no split. -/
theorem fontFeatures_C9_key_unification_amended_witness :
    (Routine.mk none [.attachment true 0, sampleChain] 0 []).rules.isEmpty = false
    ∧ (∀ r ∈ (Routine.mk none [.attachment true 0, sampleChain] 0 []).rules,
        pyEq (lookup_type r) (PyVal.int 1) = true)
    ∧ arrange_by_lookup_type (.mk none [.attachment true 0, sampleChain] 0 []) = none :=
  ⟨rfl, by decide, fontFeatures_C9_key_unification_amended.1 _ rfl (by decide)⟩

/-- C7 counterexample: with languages [(latn, *), (latn, dflt), (grek,
dflt)] the pair (latn, dflt) occurs twice after expansion, so its child
receives the parent rule twice, refuting the claim that every child holds
the parent rules exactly once. -/
theorem fontFeatures_C7_duplicate_pair_counterexample :
    arrange_by_language
      (.mk none [sampleSub] 0 [("latn", "*"), ("latn", "dflt"), ("grek", "dflt")]) =
      some [.mk none [sampleSub, sampleSub] 0 [("latn", "dflt")],
        .mk none [sampleSub] 0 [("grek", "dflt")]] :=
  rfl

/-- C7 amended: when the expanded (script, language) pairs are pairwise
distinct and at least two, the language pass emits one child per expanded
pair in order, each holding all of the parent rules exactly once, with the
single-pair languages field and the parent_script_language name; each
repetition of a pair in the languages list would append the parent rules to
that child again. -/
theorem fontFeatures_C7_language_split_amended (self : Routine)
    (hne : self.languages.isEmpty = false)
    (hnd : (self.languages.map expandLang).Nodup)
    (hlen : 2 ≤ self.languages.length) :
    arrange_by_language self =
      some ((self.languages.map expandLang).map (fun p =>
        Routine.mk
          (if pyTruthyStr self.name then
            some (self.name.getD "" ++ "_" ++ p.1 ++ "_" ++ p.2)
           else none)
          self.rules 0 [p])) := by
  simp only [arrange_by_language, hne, Bool.false_eq_true, if_false]
  rw [langFold self.rules self.languages [] hnd (by intro p hp q hq; simp at hq)]
  rw [List.nil_append]
  have hl2 : ¬ ((List.map expandLang self.languages).map
      (fun k => (k, self.rules))).length < 2 := by
    simpa using hlen
  rw [if_neg hl2]
  simp only [List.map_map]
  rfl

/-- C7 witness: a named parent with the two distinct pairs (latn, dflt)
and (grek, dflt) splits into exactly those two children, each holding all
parent rules once. -/
theorem fontFeatures_C7_language_split_amended_witness :
    langParent.languages.isEmpty = false
    ∧ (langParent.languages.map expandLang).Nodup
    ∧ 2 ≤ langParent.languages.length
    ∧ arrange_by_language langParent =
        some ((langParent.languages.map expandLang).map (fun p =>
          Routine.mk
            (if pyTruthyStr langParent.name then
              some (langParent.name.getD "" ++ "_" ++ p.1 ++ "_" ++ p.2)
             else none)
            langParent.rules 0 [p])) :=
  ⟨rfl, by decide, by decide,
    fontFeatures_C7_language_split_amended langParent rfl (by decide) (by decide)⟩

/-- C8: a nonempty group whose rules share one high-level type, one
Python-equal subtype key, at most one language scope and one flags value is
reported unsplit by arrange, and the group flags field is set to the shared
value as a side effect. -/
theorem fontFeatures_C8_homogeneous_no_split (self : Routine) (t : RName)
    (k : PyVal) (v : Nat)
    (hne : self.rules.isEmpty = false)
    (hT : ∀ r ∈ self.rules, r.pytype = t)
    (hK : ∀ r ∈ self.rules, pyEq (lookup_type r) k = true)
    (hL : self.languages.length ≤ 1)
    (hV : ∀ r ∈ self.rules, r.flags = v) :
    arrange self = .ok (self.withFlags v, none) := by
  obtain ⟨n, rules, fl, langs⟩ := self
  simp only [Routine.rules, Routine.languages] at hne hT hK hL hV
  cases rules with
  | nil => simp at hne
  | cons r0 rs =>
    have ht0 := hT r0 (List.mem_cons_self _ _)
    have hv0 := hV r0 (List.mem_cons_self _ _)
    have h1 : arrange_by_type (Routine.mk n (r0 :: rs) fl langs) = .ok none := by
      have hb : bucketize (fun a b => decide (a = b)) FRule.pytype (r0 :: rs) =
          [(r0.pytype, r0 :: rs)] := by
        apply bucketize_const
        intro w hw
        simp [hT w (List.mem_cons_of_mem _ hw), ht0]
      simp [arrange_by_type, Routine.rules, hb]
    have h2 : arrange_by_lookup_type (Routine.mk n (r0 :: rs) fl langs) = none := by
      have hb : bucketize pyEq lookup_type (r0 :: rs) =
          [(lookup_type r0, r0 :: rs)] := by
        apply bucketize_const
        intro w hw
        exact pyEq_trans (hK w (List.mem_cons_of_mem _ hw)) (hK r0 (List.mem_cons_self _ _))
      simp [arrange_by_lookup_type, Routine.rules, hb]
    have h3 : arrange_by_language (Routine.mk n (r0 :: rs) fl langs) = none := by
      cases langs with
      | nil => simp [arrange_by_language, Routine.languages]
      | cons p ps =>
        cases ps with
        | nil => simp [arrange_by_language, Routine.languages, Routine.rules, bucketAddAll]
        | cons q qs => simp at hL
    have h4 : arrange_by_flags (Routine.mk n (r0 :: rs) fl langs) =
        (Routine.mk n (r0 :: rs) v langs, none) := by
      have hb : bucketize (fun a b => decide (a = b)) FRule.flags (r0 :: rs) =
          [(r0.flags, r0 :: rs)] := by
        apply bucketize_const
        intro w hw
        simp [hV w (List.mem_cons_of_mem _ hw), hv0]
      simp [arrange_by_flags, Routine.rules, hb, Routine.withFlags, hv0]
    simp only [arrange, h1, h2, h3, h4, pyTruthySplit, Routine.withFlags]
    simp

/-- C8 witness: a two-rule single-substitution group with shared flags 7
and one wildcard language scope is left unsplit, and its flags field
becomes 7. -/
theorem fontFeatures_C8_homogeneous_no_split_witness :
    homogeneousGroup.rules.isEmpty = false
    ∧ (∀ r ∈ homogeneousGroup.rules, r.pytype = RName.substitution)
    ∧ (∀ r ∈ homogeneousGroup.rules, pyEq (lookup_type r) (PyVal.int 1) = true)
    ∧ homogeneousGroup.languages.length ≤ 1
    ∧ (∀ r ∈ homogeneousGroup.rules, r.flags = 7)
    ∧ arrange homogeneousGroup = .ok (homogeneousGroup.withFlags 7, none) :=
  ⟨rfl, by decide, by decide, by decide, by decide,
    fontFeatures_C8_homogeneous_no_split homogeneousGroup RName.substitution
      (PyVal.int 1) 7 rfl (by decide) (by decide) (by decide) (by decide)⟩

/-- C10: asFeaAST mutates the rule in place.  On the single-lookup path
every per-position entry is rewritten through the Python expression x or
[None], so absent entries become the one-element [None] list; on the
multi-lookup fallback path self.lookups is reset to the empty list, and a
second call on the mutated rule therefore takes the ignore path instead of
the placeholder. -/
theorem fontFeatures_C10_asFeaAST_in_place_mutation :
    (∀ self : Chaining.ChainRule,
      ((self.lookups.length > 0 && self.lookups.any fun x => x.isSome) = true) →
      self.lookups.any Chaining.isMulti = false →
      (Chaining.asFeaAST self).1.lookups =
        self.lookups.map (fun x => some (Chaining.pyOrDefault x)))
    ∧ (∀ self : Chaining.ChainRule, self.lookups.any Chaining.isMulti = true →
      (Chaining.asFeaAST self).1.lookups = []
      ∧ (Chaining.asFeaAST (Chaining.asFeaAST self).1).2.2 =
          .ok (.ignoreSubst (self.precontext.map Chaining.glyphref)
            (self.input.map Chaining.glyphref)
            (self.postcontext.map Chaining.glyphref))) := by
  constructor
  · intro self hcond hmulti
    simp only [Chaining.asFeaAST, hcond, if_true, hmulti, Bool.false_eq_true, if_false,
      List.map_map]
    rfl
  · intro self hmulti
    obtain ⟨hsome, hlen⟩ := any_isMulti_isSome hmulti
    have hcond : (self.lookups.length > 0 && self.lookups.any fun x => x.isSome) = true := by
      simp [hsome, hlen]
    have hred : (Chaining.asFeaAST self).1 = { self with lookups := [] } := by
      simp only [Chaining.asFeaAST, hcond, if_true, hmulti]
      cases hlu : Chaining.luNames self.lookups <;> simp [Chaining._complex, hlu]
    refine ⟨by rw [hred], ?_⟩
    rw [hred]
    rfl

/-- C10 witness: a rule with one absent and one single-lookup position has
the absent entry rewritten to [None]; a rule with a three-lookup position
ends with empty lookups and its second lowering yields the ignore
statement. -/
theorem fontFeatures_C10_asFeaAST_in_place_mutation_witness :
    ((singleLookupRule.lookups.length > 0
        && singleLookupRule.lookups.any fun x => x.isSome) = true)
    ∧ singleLookupRule.lookups.any Chaining.isMulti = false
    ∧ (Chaining.asFeaAST singleLookupRule).1.lookups =
        singleLookupRule.lookups.map (fun x => some (Chaining.pyOrDefault x))
    ∧ multiPresentRule.lookups.any Chaining.isMulti = true
    ∧ (Chaining.asFeaAST multiPresentRule).1.lookups = []
    ∧ (Chaining.asFeaAST (Chaining.asFeaAST multiPresentRule).1).2.2 =
        .ok (.ignoreSubst (multiPresentRule.precontext.map Chaining.glyphref)
          (multiPresentRule.input.map Chaining.glyphref)
          (multiPresentRule.postcontext.map Chaining.glyphref)) :=
  ⟨rfl, rfl,
    fontFeatures_C10_asFeaAST_in_place_mutation.1 singleLookupRule rfl rfl,
    rfl,
    (fontFeatures_C10_asFeaAST_in_place_mutation.2 multiPresentRule rfl).1,
    (fontFeatures_C10_asFeaAST_in_place_mutation.2 multiPresentRule rfl).2⟩

/-- C3 counterexample: with an absent position next to a three-lookup
position the fallback raises TypeError instead of returning the
placeholder; and even on the pure three-lookup rule the lookups field ends
empty rather than reduced to lookup names. -/
theorem fontFeatures_C3_fallback_counterexample :
    (Chaining.asFeaAST multiAbsentRule).2.2 = .error pyNoneIterError
    ∧ (Chaining.asFeaAST multiPresentRule).2.2 = .ok (.comment "# Unparsing failed")
    ∧ (Chaining.asFeaAST multiPresentRule).1.lookups = [] :=
  ⟨rfl, rfl, rfl⟩

/-- C3 amended: for a rule that still has a multi-lookup position, asFeaAST
warns and resets the lookups field to the empty list (the detached old list
is the one rewritten to names); it returns the placeholder comment when
every position entry is present, and raises TypeError when some other
position entry is absent. -/
theorem fontFeatures_C3_degraded_fallback_amended (self : Chaining.ChainRule)
    (h : self.lookups.any Chaining.isMulti = true) :
    (Chaining.asFeaAST self).1.lookups = []
    ∧ (Chaining.asFeaAST self).2.1 = [Chaining.afdkoWarning]
    ∧ (Chaining.asFeaAST self).2.2 =
        (if self.lookups.all Option.isSome then
          .ok (.comment "# Unparsing failed")
         else .error pyNoneIterError) := by
  obtain ⟨hsome, hlen⟩ := any_isMulti_isSome h
  have hcond : (self.lookups.length > 0 && self.lookups.any fun x => x.isSome) = true := by
    simp [hsome, hlen]
  have hred : Chaining.asFeaAST self = Chaining._complex self := by
    simp only [Chaining.asFeaAST, hcond, if_true, h]
  rw [hred]
  cases hall : self.lookups.all Option.isSome with
  | false =>
    have he := luNames_err _ hall
    simp [Chaining._complex, he]
  | true =>
    obtain ⟨v, hv⟩ := luNames_ok _ hall
    simp [Chaining._complex, hv]

/-- C3 witness: the pure three-lookup rule satisfies the multi-position
hypothesis; it ends with empty lookups, one warning, and the placeholder
comment. -/
theorem fontFeatures_C3_degraded_fallback_amended_witness :
    multiPresentRule.lookups.any Chaining.isMulti = true
    ∧ ((Chaining.asFeaAST multiPresentRule).1.lookups = []
      ∧ (Chaining.asFeaAST multiPresentRule).2.1 = [Chaining.afdkoWarning]
      ∧ (Chaining.asFeaAST multiPresentRule).2.2 =
          (if multiPresentRule.lookups.all Option.isSome then
            .ok (.comment "# Unparsing failed")
           else .error pyNoneIterError)) :=
  ⟨rfl, fontFeatures_C3_degraded_fallback_amended multiPresentRule rfl⟩

/-- C6: a chaining rule whose lookup list is empty or all-absent lowers to
the ignore statement carrying exactly the three contexts, with no warnings
and no mutation, and its feaPreamble never invokes the compatibility
oracle. -/
theorem fontFeatures_C6_empty_lookups_ignore (self : Chaining.ChainRule) (ff : Session)
    (oracle : Routine → Routine → Bool) (opt : Routine → Routine)
    (h : self.lookups.all Option.isNone = true) :
    Chaining.asFeaAST self =
      (self, [], .ok (.ignoreSubst (self.precontext.map Chaining.glyphref)
        (self.input.map Chaining.glyphref) (self.postcontext.map Chaining.glyphref)))
    ∧ (Chaining.feaPreamble self ff oracle opt).map (fun t => t.2.1.oracleCalls) =
        .ok ff.oracleCalls := by
  have hnone : ∀ x ∈ self.lookups, x = none := by
    intro x hx
    have hh := List.all_eq_true.mp h x hx
    cases x with
    | none => rfl
    | some l => simp at hh
  constructor
  · have hany : (self.lookups.any fun x => x.isSome) = false := by
      rw [List.any_eq_false]
      intro x hx
      rw [hnone x hx]
      simp
    simp [Chaining.asFeaAST, hany]
  · have p1 := (replaceLongWithClasses_preserves self.input ff).1
    have p2 := (replaceLongWithClasses_preserves self.precontext
      (Chaining.replaceLongWithClasses self.input ff).2).1
    have p3 := (replaceLongWithClasses_preserves self.postcontext
      (Chaining.replaceLongWithClasses self.precontext
        (Chaining.replaceLongWithClasses self.input ff).2).2).1
    simp only [Chaining.feaPreamble,
      feaPreambleLoop_allNone oracle opt self.lookups _ hnone, Except.map]
    rw [p3, p2, p1]

/-- C6 witness: a rule with two absent positions lowers to the ignore
statement over its contexts, and its feaPreamble leaves the oracle counter
of the empty session at zero. -/
theorem fontFeatures_C6_empty_lookups_ignore_witness :
    allAbsentRule.lookups.all Option.isNone = true
    ∧ (Chaining.asFeaAST allAbsentRule =
        (allAbsentRule, [], .ok (.ignoreSubst
          (allAbsentRule.precontext.map Chaining.glyphref)
          (allAbsentRule.input.map Chaining.glyphref)
          (allAbsentRule.postcontext.map Chaining.glyphref)))
      ∧ (Chaining.feaPreamble allAbsentRule {} (fun _ _ => false) id).map
          (fun t => t.2.1.oracleCalls) = .ok (Session.oracleCalls {})) :=
  ⟨rfl, fontFeatures_C6_empty_lookups_ignore allAbsentRule {} (fun _ _ => false) id rfl⟩

/-- Characterization of the synthesis loop on a single two-lookup position
with named routines: cache hit under either name order passes the cached
routine through without touching the session; otherwise the oracle is
invoked once, and only an accepting answer stores the merged routine, under
the first name order only. -/
theorem feaPreambleLoop_pair (oracle : Routine → Routine → Bool) (opt : Routine → Routine)
    (X Y : Routine) (nX nY : String)
    (hX : X.name = some nX) (hY : Y.name = some nY) (ff : Session) :
    Chaining.feaPreambleLoop oracle opt [some [some X, some Y]] ff =
      match assocLookup (nX ++ "_" ++ nY) ff.synthesised with
      | some cached => .ok ([some [some cached]], ff, [])
      | none =>
        match assocLookup (nY ++ "_" ++ nX) ff.synthesised with
        | some cached => .ok ([some [some cached]], ff, [])
        | none =>
          if oracle X Y then
            .ok ([some [some (opt (Routine.mk (some (nX ++ "_" ++ nY))
                (X.rules ++ Y.rules) 0 []))]],
              { ff with
                oracleCalls := ff.oracleCalls + 1,
                synthesised := ff.synthesised ++ [(nX ++ "_" ++ nY,
                  opt (Routine.mk (some (nX ++ "_" ++ nY)) (X.rules ++ Y.rules) 0 []))] },
              [opt (Routine.mk (some (nX ++ "_" ++ nY)) (X.rules ++ Y.rules) 0 [])])
          else
            .ok ([some [some X, some Y]],
              { ff with oracleCalls := ff.oracleCalls + 1 }, []) := by
  cases hc1 : assocLookup (nX ++ "_" ++ nY) ff.synthesised with
  | some cached => simp [Chaining.feaPreambleLoop, hX, hY, hc1]
  | none =>
    cases hc2 : assocLookup (nY ++ "_" ++ nX) ff.synthesised with
    | some cached => simp [Chaining.feaPreambleLoop, hX, hY, hc1, hc2]
    | none =>
      cases ho : oracle X Y with
      | true => simp [Chaining.feaPreambleLoop, hX, hY, hc1, hc2, ho]
      | false => simp [Chaining.feaPreambleLoop, hX, hY, hc1, hc2, ho]

/-- feaPreamble on a context-free pair rule is the synthesis loop on its
single position. -/
theorem feaPreamble_pairRule (oracle : Routine → Routine → Bool) (opt : Routine → Routine)
    (X Y : Routine) (ff : Session) :
    Chaining.feaPreamble (pairRule X Y) ff oracle opt =
      match Chaining.feaPreambleLoop oracle opt [some [some X, some Y]] ff with
      | .error e => .error e
      | .ok r => .ok (⟨[], [], [], r.1⟩, r.2.1, r.2.2) := rfl

/-- C2 counterexample: with an oracle that rejects the pair (A, B), nothing
is cached, so lowering two rules with the same pair invokes the oracle
twice, refuting the at-most-once claim. -/
theorem fontFeatures_C2_rejected_pair_counterexample :
    (Chaining.feaPreamble (pairRule routineA routineB) {} (fun _ _ => false) id).map
      (fun t => t.2.1.oracleCalls) = .ok 1
    ∧ ((Chaining.feaPreamble (pairRule routineA routineB) {} (fun _ _ => false) id).bind
        (fun t => Chaining.feaPreamble (pairRule routineA routineB) t.2.1
          (fun _ _ => false) id)).map (fun t => t.2.1.oracleCalls) = .ok 2 :=
  ⟨rfl, rfl⟩

/-- C2 amended: when the oracle accepts the pair, the merged routine is
cached (under the first name order) and any later rule with the two groups
in either order hits the cache without a second oracle invocation; a
rejected pair is not cached. -/
theorem fontFeatures_C2_pair_cache_amended (A B : Routine) (nA nB : String)
    (hA : A.name = some nA) (hB : B.name = some nB)
    (s0 : Session) (oracle : Routine → Routine → Bool) (opt : Routine → Routine)
    (h1 : assocLookup (nA ++ "_" ++ nB) s0.synthesised = none)
    (h2 : assocLookup (nB ++ "_" ++ nA) s0.synthesised = none)
    (hC : oracle A B = true) :
    ∃ s1 : Session,
      (Chaining.feaPreamble (pairRule A B) s0 oracle opt).map (fun t => t.2.1) = .ok s1
      ∧ s1.oracleCalls = s0.oracleCalls + 1
      ∧ (Chaining.feaPreamble (pairRule A B) s1 oracle opt).map
          (fun t => t.2.1.oracleCalls) = .ok s1.oracleCalls
      ∧ (Chaining.feaPreamble (pairRule B A) s1 oracle opt).map
          (fun t => t.2.1.oracleCalls) = .ok s1.oracleCalls := by
  refine ⟨{ s0 with
      oracleCalls := s0.oracleCalls + 1,
      synthesised := s0.synthesised ++ [(nA ++ "_" ++ nB,
        opt (Routine.mk (some (nA ++ "_" ++ nB)) (A.rules ++ B.rules) 0 []))] },
    ?_, rfl, ?_, ?_⟩
  · rw [feaPreamble_pairRule, feaPreambleLoop_pair oracle opt A B nA nB hA hB s0]
    simp only [h1, h2, hC, if_true]
    rfl
  · rw [feaPreamble_pairRule, feaPreambleLoop_pair oracle opt A B nA nB hA hB]
    have hf : assocLookup (nA ++ "_" ++ nB) (s0.synthesised ++ [(nA ++ "_" ++ nB,
        opt (Routine.mk (some (nA ++ "_" ++ nB)) (A.rules ++ B.rules) 0 []))]) =
        some (opt (Routine.mk (some (nA ++ "_" ++ nB)) (A.rules ++ B.rules) 0 [])) :=
      assocLookup_append_self _ _ s0.synthesised h1
    simp only [hf]
    rfl
  · rw [feaPreamble_pairRule, feaPreambleLoop_pair oracle opt B A nB nA hB hA]
    have hf : assocLookup (nA ++ "_" ++ nB) (s0.synthesised ++ [(nA ++ "_" ++ nB,
        opt (Routine.mk (some (nA ++ "_" ++ nB)) (A.rules ++ B.rules) 0 []))]) =
        some (opt (Routine.mk (some (nA ++ "_" ++ nB)) (A.rules ++ B.rules) 0 [])) :=
      assocLookup_append_self _ _ s0.synthesised h1
    by_cases heq : nB ++ "_" ++ nA = nA ++ "_" ++ nB
    · have hf2 : assocLookup (nB ++ "_" ++ nA) (s0.synthesised ++ [(nA ++ "_" ++ nB,
          opt (Routine.mk (some (nA ++ "_" ++ nB)) (A.rules ++ B.rules) 0 []))]) =
          some (opt (Routine.mk (some (nA ++ "_" ++ nB)) (A.rules ++ B.rules) 0 [])) := by
        rw [heq]; exact hf
      simp only [hf2]
      rfl
    · have hmiss : assocLookup (nB ++ "_" ++ nA) (s0.synthesised ++ [(nA ++ "_" ++ nB,
          opt (Routine.mk (some (nA ++ "_" ++ nB)) (A.rules ++ B.rules) 0 []))]) = none := by
        rw [assocLookup_append, h2]
        simp [assocLookup, heq]
      simp only [hmiss, hf]
      rfl

/-- C2 witness: two concrete named routines, an empty session and an
accepting oracle exercise the amended cache behavior. -/
theorem fontFeatures_C2_pair_cache_amended_witness :
    routineA.name = some "A"
    ∧ routineB.name = some "B"
    ∧ assocLookup ("A" ++ "_" ++ "B") (Session.synthesised {}) = none
    ∧ assocLookup ("B" ++ "_" ++ "A") (Session.synthesised {}) = none
    ∧ ((fun _ _ => true) routineA routineB) = true
    ∧ (∃ s1 : Session,
      (Chaining.feaPreamble (pairRule routineA routineB) {} (fun _ _ => true) id).map
        (fun t => t.2.1) = .ok s1
      ∧ s1.oracleCalls = Session.oracleCalls {} + 1
      ∧ (Chaining.feaPreamble (pairRule routineA routineB) s1 (fun _ _ => true) id).map
          (fun t => t.2.1.oracleCalls) = .ok s1.oracleCalls
      ∧ (Chaining.feaPreamble (pairRule routineB routineA) s1 (fun _ _ => true) id).map
          (fun t => t.2.1.oracleCalls) = .ok s1.oracleCalls) :=
  ⟨rfl, rfl, rfl, rfl, rfl,
    fontFeatures_C2_pair_cache_amended routineA routineB "A" "B" rfl rfl {}
      (fun _ _ => true) id rfl rfl rfl⟩

/-- Characterization of oversized-class replacement on a single class: a
cache hit reuses the cached name without touching the session, a miss
allocates the next counter name and registers it in the named-class table
and the cache, keyed by the sorted tuple. -/
theorem replaceLong_single (g : List String) (s : Session) (h : 5 < g.length) :
    Chaining.replaceLongWithClasses [g] s =
      match assocLookup (Chaining.pySorted g) s.glyphclasses with
      | some cn => ([["@" ++ cn]], s)
      | none =>
        ([["@" ++ ("class" ++ toString (s.index + 1))]],
          { s with
            index := s.index + 1,
            namedClasses := s.namedClasses ++ [("class" ++ toString (s.index + 1), g)],
            glyphclasses := s.glyphclasses ++
              [(Chaining.pySorted g, "class" ++ toString (s.index + 1))] }) := by
  cases hc : assocLookup (Chaining.pySorted g) s.glyphclasses with
  | some cn => simp [Chaining.replaceLongWithClasses, h, hc]
  | none => simp [Chaining.replaceLongWithClasses, h, hc, Chaining.gensym]

/-- feaPreamble on a rule whose only glyph class is in the precontext is
the replacement of that class. -/
theorem feaPreamble_preClass (oracle : Routine → Routine → Bool) (opt : Routine → Routine)
    (g : List String) (s : Session) :
    Chaining.feaPreamble (preClassRule g) s oracle opt =
      .ok (⟨(Chaining.replaceLongWithClasses [g] s).1, [], [], []⟩,
        (Chaining.replaceLongWithClasses [g] s).2, []) := rfl

/-- feaPreamble on a rule whose only glyph class is in the postcontext is
the replacement of that class. -/
theorem feaPreamble_postClass (oracle : Routine → Routine → Bool) (opt : Routine → Routine)
    (g : List String) (s : Session) :
    Chaining.feaPreamble (postClassRule g) s oracle opt =
      .ok (⟨[], [], (Chaining.replaceLongWithClasses [g] s).1, []⟩,
        (Chaining.replaceLongWithClasses [g] s).2, []) := rfl

/-- C5 counterexample: the two oversized classes are equal as sets (equal
after sorting and deduplication) yet receive the distinct generated names
class1 and class2 in one session, because the cache key is the sorted tuple
without deduplication. -/
theorem fontFeatures_C5_dedup_counterexample :
    (Chaining.feaPreamble (preClassRule oversizedA) {} (fun _ _ => false) id).map
      (fun t => t.1.precontext) = .ok [["@class1"]]
    ∧ ((Chaining.feaPreamble (preClassRule oversizedA) {} (fun _ _ => false) id).bind
        (fun t => Chaining.feaPreamble (preClassRule oversizedB) t.2.1
          (fun _ _ => false) id)).map (fun t => t.1.precontext) = .ok [["@class2"]]
    ∧ (Chaining.pySorted oversizedA).dedup = (Chaining.pySorted oversizedB).dedup :=
  ⟨rfl, rfl, by decide⟩

/-- C5 amended: an oversized class is replaced in place by a generated
class reference, and two oversized classes that are equal as sorted tuples
(multiplicities included) receive the same generated name within one
session, wherever they occur among the context sequences; set equality
after deduplication is not sufficient. -/
theorem fontFeatures_C5_sorted_tuple_amended (gc1 gc2 : List String) (s0 : Session)
    (oracle : Routine → Routine → Bool) (opt : Routine → Routine)
    (h1 : 5 < gc1.length) (h2 : 5 < gc2.length)
    (hs : Chaining.pySorted gc1 = Chaining.pySorted gc2) :
    ∃ cn s1 s2,
      Chaining.feaPreamble (preClassRule gc1) s0 oracle opt =
        .ok (⟨[["@" ++ cn]], [], [], []⟩, s1, [])
      ∧ assocLookup (Chaining.pySorted gc1) s1.glyphclasses = some cn
      ∧ Chaining.feaPreamble (postClassRule gc2) s1 oracle opt =
        .ok (⟨[], [], [["@" ++ cn]], []⟩, s2, []) := by
  cases hc : assocLookup (Chaining.pySorted gc1) s0.glyphclasses with
  | some cn =>
    refine ⟨cn, s0, s0, ?_, hc, ?_⟩
    · rw [feaPreamble_preClass, replaceLong_single gc1 s0 h1]
      simp [hc]
    · rw [feaPreamble_postClass, replaceLong_single gc2 s0 h2, ← hs]
      simp [hc]
  | none =>
    refine ⟨"class" ++ toString (s0.index + 1),
      { s0 with
        index := s0.index + 1,
        namedClasses := s0.namedClasses ++
          [("class" ++ toString (s0.index + 1), gc1)],
        glyphclasses := s0.glyphclasses ++
          [(Chaining.pySorted gc1, "class" ++ toString (s0.index + 1))] },
      { s0 with
        index := s0.index + 1,
        namedClasses := s0.namedClasses ++
          [("class" ++ toString (s0.index + 1), gc1)],
        glyphclasses := s0.glyphclasses ++
          [(Chaining.pySorted gc1, "class" ++ toString (s0.index + 1))] },
      ?_, ?_, ?_⟩
    · rw [feaPreamble_preClass, replaceLong_single gc1 s0 h1]
      simp [hc]
    · exact assocLookup_append_self _ _ s0.glyphclasses hc
    · rw [feaPreamble_postClass, replaceLong_single gc2 _ h2, ← hs]
      have hfound : assocLookup (Chaining.pySorted gc1)
          (s0.glyphclasses ++
            [(Chaining.pySorted gc1, "class" ++ toString (s0.index + 1))]) =
          some ("class" ++ toString (s0.index + 1)) :=
        assocLookup_append_self _ _ s0.glyphclasses hc
      simp [hfound]

/-- C5 witness: the same oversized class met twice, first in a precontext
and then in a postcontext, is replaced by one shared generated name. -/
theorem fontFeatures_C5_sorted_tuple_amended_witness :
    5 < oversizedA.length
    ∧ Chaining.pySorted oversizedA = Chaining.pySorted oversizedA
    ∧ (∃ cn s1 s2,
      Chaining.feaPreamble (preClassRule oversizedA) {} (fun _ _ => false) id =
        .ok (⟨[["@" ++ cn]], [], [], []⟩, s1, [])
      ∧ assocLookup (Chaining.pySorted oversizedA) s1.glyphclasses = some cn
      ∧ Chaining.feaPreamble (postClassRule oversizedA) s1 (fun _ _ => false) id =
        .ok (⟨[], [], [["@" ++ cn]], []⟩, s2, [])) :=
  ⟨by decide, rfl,
    fontFeatures_C5_sorted_tuple_amended oversizedA oversizedA {} (fun _ _ => false) id
      (by decide) (by decide) rfl⟩
